import Mathlib

/-!
Verification of the icosphere library: a shallow embedding of `src/lib.rs`
(`StaticIcosphere`, `SparseIcosphere`, the count formulas) and of
`src/levels.rs` (`IcosphereLevels`), together with theorems settling the
specification claims.

Modelling conventions:
* Vertex positions are 3D float vectors in the source.  They flow only
  through three operations: the twelve golden-ratio base positions of the
  regular icosahedron, cloning, and the normalized midpoint
  `(p + q).normalize()`.  We model them symbolically by the free algebra
  `Pos`: `Pos.base n` stands for the n-th entry of the normalized
  golden-ratio table (twelve pairwise distinct unit vectors) and
  `Pos.mid p q` stands for `(p + q).normalize()`.  Every position
  computation in the source is mirrored term-for-term in this algebra.
* Rust `HashMap` values are modelled as association lists with
  `HashMap::insert` replacement semantics; `HashSet` values as
  duplicate-free lists.  Only lookup, insert-or-replace and length are
  used by the embedded code, and those agree with the hash containers.
* Machine integers (`usize`, `u32`) are modelled as `Nat`; every index
  appearing in the scenarios below is far below `2^32`, so the casts
  `as u32` / `as usize` in the source are value-preserving.
* A Rust panic (`panic!`, out-of-range indexing, `HashMap` index on a
  missing key, `Option::unwrap` on `None`) is a fatal, non-recoverable
  outcome; the embedded functions return `Option`/`Except` and model a
  panic as `none` / `.error e`.
-/

set_option maxRecDepth 4000

namespace Icosphere

/-- Symbolic vertex positions: `base n` is the n-th normalized golden-ratio
position of the regular icosahedron, `mid p q` is the normalized average
`(p + q).normalize()` of two positions. -/
inductive Pos where
  | base : Nat → Pos
  | mid : Pos → Pos → Pos
deriving DecidableEq, Repr

/-- A triangle: the ordered triple of its three vertex indices
(`[u32; 3]` in the source). -/
abbrev Tri := Nat × Nat × Nat

/-- Lookup in an association list, the model of `HashMap::get`. -/
def lookupA {α β : Type} [DecidableEq α] (k : α) : List (α × β) → Option β
  | [] => none
  | (k', v) :: l => if k' = k then some v else lookupA k l

/-- Insert-or-replace in an association list, the model of
`HashMap::insert` (keys stay unique, length grows only on fresh keys). -/
def insertA {α β : Type} [DecidableEq α] (k : α) (v : β) : List (α × β) → List (α × β)
  | [] => [(k, v)]
  | (k', v') :: l => if k' = k then (k, v) :: l else (k', v') :: insertA k v l

/-- Insert into a duplicate-free list, the model of `HashSet::insert`. -/
def setInsert (x : Nat) (s : List Nat) : List Nat :=
  if x ∈ s then s else s ++ [x]

/-- The model of `neighbors.entry(k).or_default().insert(v)`. -/
def nbAdd (k v : Nat) (l : List (Nat × List Nat)) : List (Nat × List Nat) :=
  match lookupA k l with
  | some s => insertA k (setInsert v s) l
  | none => insertA k (setInsert v []) l

/-- Collect a fixed array into a `HashSet`: deduplicate, keeping first
occurrences (the model of `into_iter().collect::<HashSet<_>>()`). -/
def mkSet (l : List Nat) : List Nat :=
  l.foldl (fun s x => setInsert x s) []

/-- `vertex_count` from `lib.rs`: `10 * (1 << (binning_depth * 2)) + 2`. -/
def vertex_count (binning_depth : Nat) : Nat :=
  10 * (1 <<< (binning_depth * 2)) + 2

/-- `triangle_count` from `lib.rs`: `20 * (1 << (binning_depth * 2))`. -/
def triangle_count (binning_depth : Nat) : Nat :=
  20 * (1 <<< (binning_depth * 2))

/-- `StaticIcosphere` from `lib.rs`, with the vertex payload instantiated at
positions (`T = Vec3`, whose `IcosphereVertex` instance is the identity). -/
structure StaticIcosphere where
  vertices : List Pos
  triangles : List Tri
  neighbors : List (Nat × List Nat)
  binning_depth : Nat
  midpoints : List ((Nat × Nat) × Nat)
deriving Repr, DecidableEq

/-- The 20 triangles of `StaticIcosphere::regular`. -/
def regularTriangles : List Tri :=
  [(0, 11, 5), (0, 5, 1), (0, 1, 7), (0, 7, 10), (0, 10, 11),
   (1, 5, 9), (5, 11, 4), (11, 10, 2), (10, 7, 6), (7, 1, 8),
   (3, 9, 4), (3, 4, 2), (3, 2, 6), (3, 6, 8), (3, 8, 9),
   (4, 9, 5), (2, 4, 11), (6, 2, 10), (8, 6, 7), (9, 8, 1)]

/-- The `neighbor_indices` table of `StaticIcosphere::regular`, verbatim
(row 1 contains the entry 9 twice, exactly as in the source). -/
def regularNeighborRows : List (List Nat) :=
  [[11, 5, 1, 7, 10],
   [5, 9, 7, 8, 9],
   [11, 10, 3, 4, 6],
   [9, 4, 2, 6, 8],
   [5, 11, 3, 9, 2],
   [0, 11, 1, 9, 4],
   [10, 7, 3, 2, 8],
   [0, 1, 10, 6, 8],
   [3, 6, 7, 9, 1],
   [1, 5, 3, 8, 4],
   [0, 7, 11, 2, 6],
   [0, 5, 10, 4, 2]]

/-- `StaticIcosphere::regular`: the twelve normalized golden-ratio
positions, the twenty fixed triangles, and the neighbor table collected
row-by-row into hash sets. -/
def StaticIcosphere.regular : StaticIcosphere :=
  { vertices := (List.range 12).map Pos.base
    triangles := regularTriangles
    neighbors := (regularNeighborRows.map mkSet).enum
    binning_depth := 0
    midpoints := [] }

/-- The mutable local state of `StaticIcosphere::subdivide`: the growing
`vertices`, `triangles`, `neighbors` and `midpoints` containers. -/
structure DAcc where
  vertices : List Pos
  triangles : List Tri
  neighbors : List (Nat × List Nat)
  midpoints : List ((Nat × Nat) × Nat)
deriving Repr

/-- The midpoint resolution inside the edge loop of
`StaticIcosphere::subdivide`.  Exactly as in the source, the lookup
consults `self.midpoints` (the cache `oldMid` of the mesh being
subdivided), while a fresh midpoint is recorded in the new cache.
Out-of-range vertex indexing is a panic, modelled as `none`. -/
def denseEdge (oldMid : List ((Nat × Nat) × Nat)) (acc : DAcc) (i j : Nat) :
    Option (DAcc × Nat) :=
  let key := if i > j then (j, i) else (i, j)
  match lookupA key oldMid with
  | some midpoint_index => some (acc, midpoint_index)
  | none =>
    match acc.vertices.get? i, acc.vertices.get? j with
    | some pi, some pj =>
      let midpoint_index := acc.vertices.length
      some ({ acc with
              vertices := acc.vertices ++ [Pos.mid pi pj]
              midpoints := insertA key midpoint_index acc.midpoints
              neighbors := nbAdd j midpoint_index (nbAdd i midpoint_index
                (nbAdd midpoint_index j (nbAdd midpoint_index i acc.neighbors))) },
            midpoint_index)
    | _, _ => none

/-- Update component `edgeIndex` of the `segment_midpoints` array. -/
def setSeg (sm : Nat × Nat × Nat) (edgeIndex m : Nat) : Nat × Nat × Nat :=
  match edgeIndex with
  | 0 => (m, sm.2.1, sm.2.2)
  | 1 => (sm.1, m, sm.2.2)
  | _ => (sm.1, sm.2.1, m)

/-- One iteration of the edge loop of `StaticIcosphere::subdivide`:
resolve the midpoint, store it in `segment_midpoints`, and — as in the
source, where the push block sits inside the edge loop — immediately
push the four triangles `[a,d,f], [b,e,d], [c,f,e], [d,e,f]` built from
the current (partially filled) `segment_midpoints`. -/
def denseEdgeStep (oldMid : List ((Nat × Nat) × Nat)) (abc : Tri) (edgeIndex : Nat)
    (st : DAcc × (Nat × Nat × Nat)) (i j : Nat) : Option (DAcc × (Nat × Nat × Nat)) :=
  match denseEdge oldMid st.1 i j with
  | none => none
  | some (acc, m) =>
    let sm := setSeg st.2 edgeIndex m
    let (a, b, c) := abc
    let (d, e, f) := sm
    some ({ acc with
            triangles := acc.triangles ++ [(a, d, f), (b, e, d), (c, f, e), (d, e, f)] },
          sm)

/-- The body of `StaticIcosphere::subdivide` for one parent triangle:
`segment_midpoints` starts as `[0, 0, 0]` and the three edges
`(a,b), (b,c), (c,a)` are processed in order. -/
def denseParent (oldMid : List ((Nat × Nat) × Nat)) (acc : DAcc) (t : Tri) :
    Option DAcc := do
  let (a, b, c) := t
  let st0 := (acc, ((0 : Nat), (0 : Nat), (0 : Nat)))
  let st1 ← denseEdgeStep oldMid t 0 st0 a b
  let st2 ← denseEdgeStep oldMid t 1 st1 b c
  let st3 ← denseEdgeStep oldMid t 2 st2 c a
  pure st3.1

/-- `StaticIcosphere::subdivide` from `lib.rs`: vertices start as a copy of
the parent mesh, then every parent triangle is processed in index order. -/
def StaticIcosphere.subdivide (s : StaticIcosphere) : Option StaticIcosphere := do
  let init : DAcc := ⟨s.vertices, [], [], []⟩
  let acc ← s.triangles.foldlM (denseParent s.midpoints) init
  pure ⟨acc.vertices, acc.triangles, acc.neighbors, s.binning_depth + 1, acc.midpoints⟩

/-- `SparseIcosphere` from `lib.rs`, vertex payload instantiated at
positions; `triangles` is the sparse index-to-triangle map. -/
structure SparseIcosphere where
  vertices : List Pos
  triangles : List (Nat × Tri)
  neighbors : List (Nat × List Nat)
  binning_depth : Nat
  midpoints : List ((Nat × Nat) × Nat)
  previous_vertices : List (Nat × Nat)
deriving Repr, DecidableEq

/-- `SparseIcosphere::from_static`. -/
def SparseIcosphere.fromStatic (ico : StaticIcosphere) : SparseIcosphere :=
  { vertices := ico.vertices
    triangles := ico.triangles.enum
    neighbors := ico.neighbors
    binning_depth := ico.binning_depth
    midpoints := ico.midpoints
    previous_vertices := [] }

/-- `SparseIcosphere::regular`. -/
def SparseIcosphere.regular : SparseIcosphere :=
  SparseIcosphere.fromStatic StaticIcosphere.regular

/-- `SparseIcosphere::empty`. -/
def SparseIcosphere.empty (binning_depth : Nat) : SparseIcosphere :=
  { vertices := []
    triangles := []
    neighbors := []
    binning_depth := binning_depth
    midpoints := []
    previous_vertices := [] }

/-- The ways `SparseIcosphere::subdivide_chunk` can panic: the explicit
depth-mismatch `panic!`, a `HashMap` index on a missing parent triangle,
or an out-of-range `Vec` index. -/
inductive ChunkError where
  | depthMismatch
  | missingTriangle
  | indexOutOfBounds
deriving DecidableEq, Repr

/-- The corner-copy loop body of `SparseIcosphere::subdivide_chunk`: fetch
the parent vertex (an out-of-range index panics, even when the cache would
hit, because the source fetches before consulting the cache), then reuse
or extend via `previous_vertices`. -/
def copyCorner (previous s : SparseIcosphere) (previous_vertex_index : Nat) :
    Except ChunkError (SparseIcosphere × Nat) :=
  match previous.vertices.get? previous_vertex_index with
  | none => .error .indexOutOfBounds
  | some vertex =>
    match lookupA previous_vertex_index s.previous_vertices with
    | some vertex_index => .ok (s, vertex_index)
    | none =>
      let new_vertex_index := s.vertices.length
      .ok ({ s with
             vertices := s.vertices ++ [vertex]
             previous_vertices :=
               insertA previous_vertex_index new_vertex_index s.previous_vertices },
           new_vertex_index)

/-- The midpoint loop body of `SparseIcosphere::subdivide_chunk`.  The
indices `i, j` are indices into `self.vertices`, yet the source computes
the midpoint from `previous.vertices[i]` and `previous.vertices[j]`
(an out-of-range index panics); this is embedded verbatim. -/
def splitEdge (previous s : SparseIcosphere) (i j : Nat) :
    Except ChunkError (SparseIcosphere × Nat) :=
  let key := if i > j then (j, i) else (i, j)
  match lookupA key s.midpoints with
  | some midpoint_index => .ok (s, midpoint_index)
  | none =>
    match previous.vertices.get? i, previous.vertices.get? j with
    | some pi, some pj =>
      let midpoint_index := s.vertices.length
      .ok ({ s with
             vertices := s.vertices ++ [Pos.mid pi pj]
             midpoints := insertA key midpoint_index s.midpoints
             neighbors := nbAdd j midpoint_index (nbAdd i midpoint_index
               (nbAdd midpoint_index j (nbAdd midpoint_index i s.neighbors))) },
           midpoint_index)
    | _, _ => .error .indexOutOfBounds

/-- `SparseIcosphere::subdivide_chunk` from `lib.rs`.

The returned `Bool` is modelled from the spec: the trait declaration in
`lib.rs` returns `()`, but `IcosphereLevels::update_chunk` in `levels.rs`
forwards the call as its own `bool` result, documented as true when the
chunk was generated and false when it was already present; the variant of
the trait with that return type is missing from `src/`.  The `Bool`
returned here is `true` exactly on the path that performs work, `false`
on the two early-return paths; it changes nothing else about the embedded
control flow, which follows the `lib.rs` body statement by statement. -/
def SparseIcosphere.subdivideChunk (s previous : SparseIcosphere) (parent_index : Nat) :
    Except ChunkError (SparseIcosphere × Bool) :=
  if previous.binning_depth + 1 ≠ s.binning_depth then
    .error .depthMismatch
  else if s.triangles.length = triangle_count s.binning_depth then
    .ok (s, false)
  else if (lookupA (parent_index * 4) s.triangles).isSome then
    .ok (s, false)
  else
    match lookupA parent_index previous.triangles with
    | none => .error .missingTriangle
    | some (pa, pb, pc) =>
      match copyCorner previous s pa with
      | .error e => .error e
      | .ok (s, a) =>
        match copyCorner previous s pb with
        | .error e => .error e
        | .ok (s, b) =>
          match copyCorner previous s pc with
          | .error e => .error e
          | .ok (s, c) =>
            match splitEdge previous s a b with
            | .error e => .error e
            | .ok (s, d) =>
              match splitEdge previous s b c with
              | .error e => .error e
              | .ok (s, e') =>
                match splitEdge previous s c a with
                | .error e => .error e
                | .ok (s, f) =>
                  let new_triangle_index := parent_index * 4
                  let tri0 := insertA new_triangle_index (a, d, f) s.triangles
                  let tri1 := insertA (new_triangle_index + 1) (b, e', d) tri0
                  let tri2 := insertA (new_triangle_index + 2) (c, f, e') tri1
                  let tri3 := insertA (new_triangle_index + 3) (d, e', f) tri2
                  .ok ({ s with triangles := tri3 }, true)

/-- `IcosphereLevels` from `levels.rs`, instantiated at the sparse mesh
(the only representation whose `subdivide_chunk` performs work). -/
structure IcosphereLevels where
  levels : List SparseIcosphere
  min_binning_depth : Nat
  max_binning_depth : Nat
  binning_depth_step : Nat
deriving Repr, DecidableEq

/-- `IcosphereLevels::new`.  The element constructor `S::create` is absent
from the `Icosphere` trait in `lib.rs`; modelled from the spec: the
constructed icospheres are "potentially empty/not generated yet", i.e.
`SparseIcosphere::empty` at each depth.  The loop runs over every depth
from `min_binning_depth` to `max_binning_depth` inclusive, as in the
source. -/
def IcosphereLevels.new (min_binning_depth level_count binning_depth_step : Nat) :
    IcosphereLevels :=
  let max_binning_depth := min_binning_depth + (level_count - 1) * binning_depth_step
  { levels := (List.range (max_binning_depth - min_binning_depth + 1)).map
      (fun k => SparseIcosphere.empty (min_binning_depth + k))
    min_binning_depth := min_binning_depth
    max_binning_depth := max_binning_depth
    binning_depth_step := binning_depth_step }

/-- `IcosphereLevels::index_at_level`. -/
def IcosphereLevels.index_at_level (m : IcosphereLevels) (level : Nat) : Nat :=
  level * m.binning_depth_step

/-- `IcosphereLevels::update_chunk`: split the mesh sequence at the
internal index, unwrap the previous and current meshes (unwrap of `None`
panics, modelled as `none`), and delegate to `subdivide_chunk`.  The
result pairs the updated manager with the forwarded `Bool`. -/
def IcosphereLevels.updateChunk (m : IcosphereLevels) (level chunk_index : Nat) :
    Option (IcosphereLevels × Bool) :=
  let index := m.index_at_level level
  match (m.levels.take index).getLast?, (m.levels.drop index).head? with
  | some previous, some current =>
    match current.subdivideChunk previous chunk_index with
    | .ok (c, generated) => some ({ m with levels := m.levels.set index c }, generated)
    | .error _ => none
  | _, _ => none

/-- `IcosphereLevels::binning_depth_at_level`. -/
def IcosphereLevels.binning_depth_at_level (m : IcosphereLevels) (level : Nat) : Nat :=
  m.min_binning_depth + level * m.binning_depth_step

/-- `IcosphereLevels::level_of_binning_depth`.  The source checks the
lower bound first (so the `Nat` subtraction below is only reached when
`binning_depth ≥ min_binning_depth`, matching `usize` arithmetic); the
upper bound is `binning_depth_at_level(levels.len())`, verbatim. -/
def IcosphereLevels.level_of_binning_depth (m : IcosphereLevels) (binning_depth : Nat) :
    Option Nat :=
  if binning_depth < m.min_binning_depth then none
  else if m.binning_depth_at_level m.levels.length ≤ binning_depth then none
  else if (binning_depth - m.min_binning_depth) % m.binning_depth_step ≠ 0 then none
  else some ((binning_depth - m.min_binning_depth) / m.binning_depth_step)

/-- `IcosphereLevels::level_count`. -/
def IcosphereLevels.level_count (m : IcosphereLevels) : Nat :=
  (m.max_binning_depth - m.min_binning_depth) / m.binning_depth_step + 1

/-- `IcosphereLevels::chunk_size`: `1 << (2 * binning_depth_step)`. -/
def IcosphereLevels.chunk_size (m : IcosphereLevels) : Nat :=
  1 <<< (2 * m.binning_depth_step)

/-- `IcosphereLevels::subchunk_indices`, the range
`chunk_index * chunk_size .. chunk_index * chunk_size + chunk_size`
as the list of its elements. -/
def IcosphereLevels.subchunk_indices (m : IcosphereLevels) (chunk_index : Nat) : List Nat :=
  List.range' (chunk_index * m.chunk_size) m.chunk_size

/-- `IcosphereLevels::get` (`Vec` indexing panics when out of range). -/
def IcosphereLevels.get? (m : IcosphereLevels) (level : Nat) : Option SparseIcosphere :=
  m.levels.get? (m.index_at_level level)

/-- Write `vals` into `l` starting at `start`:
`l[start..start + vals.len()].copy_from_slice(vals)`, which panics when
the range exceeds the buffer. -/
def writeSlice (l : List Nat) (start : Nat) (vals : List Nat) : Option (List Nat) :=
  if start + vals.length ≤ l.length then
    some (l.take start ++ vals ++ l.drop (start + vals.length))
  else none

/-- `IcosphereLevels::flattened_chunk_indices`: a zero-filled buffer of
length `3 * chunk_size()`, then for every triangle index of the subchunk
range, fetch the triangle (`HashMap` index panics on a missing key) and
copy its triple into the buffer at `triangle_index * 3`. -/
def IcosphereLevels.flattened_chunk_indices (m : IcosphereLevels) (level chunk_index : Nat) :
    Option (List Nat) :=
  let init := List.replicate (3 * m.chunk_size) 0
  (m.subchunk_indices chunk_index).foldlM
    (fun indices triangle_index => do
      let ico ← m.get? level
      let (x, y, z) ← lookupA triangle_index ico.triangles
      writeSlice indices (triangle_index * 3) [x, y, z])
    init

/-- The chunk-by-chunk generation scenario of the spec: a depth-1 sparse
mesh built from `empty(1)` by calling `subdivide_chunk` against the
regular icosahedron once for every parent triangle index `0..20`, in
order. -/
def chainDepth1 : Except ChunkError SparseIcosphere :=
  (List.range 20).foldlM
    (fun s c => (SparseIcosphere.subdivideChunk s SparseIcosphere.regular c).map Prod.fst)
    (SparseIcosphere.empty 1)

/-- A sparse mesh whose chunks 0 and 1 are generated (triangle keys 0..8
present), as `update_chunk` would leave it; the triangle contents are
irrelevant to the indexing behaviour under test. -/
def chunkMesh : SparseIcosphere :=
  { vertices := [Pos.base 0, Pos.base 1, Pos.base 2]
    triangles := (List.range 8).map (fun k => (k, ((0 : Nat), (1 : Nat), (2 : Nat))))
    neighbors := []
    binning_depth := 2
    midpoints := []
    previous_vertices := [] }

/-- A one-level manager with `binning_depth_step = 1` holding `chunkMesh`. -/
def chunkLevels : IcosphereLevels :=
  { levels := [chunkMesh]
    min_binning_depth := 2
    max_binning_depth := 2
    binning_depth_step := 1 }

/-- A manager built by `IcosphereLevels::new` with `min_binning_depth = 1`,
`level_count = 3` and `binning_depth_step = 2`. -/
def levelsStep2 : IcosphereLevels := IcosphereLevels.new 1 3 2

/-- A generated depth-1 sparse mesh holding the single parent triangle 0,
used as the previous level of the idempotence scenario. -/
def idemPrev : SparseIcosphere :=
  { vertices := [Pos.base 0, Pos.base 1, Pos.base 2]
    triangles := [(0, ((0 : Nat), (1 : Nat), (2 : Nat)))]
    neighbors := []
    binning_depth := 1
    midpoints := []
    previous_vertices := [] }

/-- A two-level manager (depths 1 and 2, step 1) whose depth-2 mesh is
still empty. -/
def idemLevels : IcosphereLevels :=
  { levels := [idemPrev, SparseIcosphere.empty 2]
    min_binning_depth := 1
    max_binning_depth := 2
    binning_depth_step := 1 }

/-- The manager state after the first `update_chunk(1, 0)` call on
`idemLevels`. -/
def idemLevelsAfter : IcosphereLevels :=
  match idemLevels.updateChunk 1 0 with
  | some (m, _) => m
  | none => idemLevels

/-- C1: refuted by evaluation — `StaticIcosphere::subdivide` on the
regular icosahedron yields a mesh of depth 1 whose triangle list has 240
entries, not `4 * 20 = 80 = triangle_count(1)`: the push of the four
children sits inside the per-edge loop, so every parent emits twelve
triangles, the first two batches built from stale zero entries of
`segment_midpoints` (the first four emitted triangles are
`[0,12,0], [11,0,12], [5,0,0], [12,0,0]`). -/
theorem dense_subdivide_emits_twelve_children :
    (StaticIcosphere.regular.subdivide).map
        (fun s => (s.binning_depth, s.triangles.length, s.triangles.take 4)) =
      some (1, 240, [(0, 12, 0), (11, 0, 12), (5, 0, 0), (12, 0, 0)]) ∧
    4 * StaticIcosphere.regular.triangles.length = 80 ∧
    triangle_count 1 = 80 := by
  exact ⟨rfl, rfl, rfl⟩

/-- C2: refuted by evaluation — generating every chunk of a depth-1 sparse
mesh one at a time panics with an out-of-range vertex index (at parent
chunk 3), while the dense whole-mesh `subdivide` of the same depth yields
240 triangles and 72 vertices instead of the 80 and 42 the claim implies,
so the two constructions cannot produce identical meshes at depth 1, nor
a fortiori at depth 2, which is built on top of depth 1. -/
theorem sparse_dense_generation_diverges :
    chainDepth1 = .error .indexOutOfBounds ∧
    (StaticIcosphere.regular.subdivide).map
        (fun s => (s.triangles.length, s.vertices.length)) = some (240, 72) ∧
    triangle_count 1 = 80 ∧ vertex_count 1 = 42 := by
  exact ⟨rfl, rfl, rfl, rfl⟩

/-- C3: refuted by evaluation — subdividing parent chunk 0 (the parent
triangle with vertex indices `(0, 11, 5)`) into an empty depth-1 mesh
creates, as its first midpoint (vertex index 3), the position
`mid (base 0) (base 1)`, i.e. the normalized average of the parent
vertices 0 and 1, not of the edge endpoints 0 and 11: the source indexes
`previous.vertices` with current-mesh indices.  The two symbolic
positions differ, and they also denote distinct real vectors, being
normalized sums of distinct pairs of the twelve distinct base
positions. -/
theorem sparse_midpoint_wrong_endpoints :
    ((SparseIcosphere.empty 1).subdivideChunk SparseIcosphere.regular 0).map
        (fun r => (r.1.vertices.get? 3, r.2)) =
      .ok (some (Pos.mid (Pos.base 0) (Pos.base 1)), true) ∧
    lookupA 0 SparseIcosphere.regular.triangles = some (0, 11, 5) ∧
    SparseIcosphere.regular.vertices.get? 0 = some (Pos.base 0) ∧
    SparseIcosphere.regular.vertices.get? 11 = some (Pos.base 11) ∧
    Pos.mid (Pos.base 0) (Pos.base 1) ≠ Pos.mid (Pos.base 0) (Pos.base 11) := by
  exact ⟨rfl, rfl, rfl, rfl, by decide⟩

/-- C6: refuted by evaluation — for the manager built by
`new(min_binning_depth = 1, level_count = 3, binning_depth_step = 2)`
(so `max_binning_depth = 5` and levels 0, 1, 2), the claim demands `None`
for depth 7, which lies outside `[1, 5]`; but the source bounds the
query by `binning_depth_at_level(levels.len())` with `levels.len() = 5`
meshes (one per depth, not one per level), i.e. by `1 + 5*2 = 11`, and
returns `Some 3` — a level that does not exist. -/
theorem level_of_binning_depth_overshoot :
    levelsStep2.max_binning_depth = 5 ∧
    levelsStep2.level_count = 3 ∧
    levelsStep2.levels.length = 5 ∧
    levelsStep2.level_of_binning_depth 7 = some 3 ∧
    levelsStep2.binning_depth_at_level 3 = 7 := by
  exact ⟨rfl, rfl, rfl, rfl, rfl⟩

/-- C7: confirmed — the count formulas are the closed forms
`10 * 4 ^ d + 2` and `20 * 4 ^ d` and satisfy the edge-midpoint and
quadrupling recurrences, in exact natural-number arithmetic. -/
theorem count_formulas_closed_and_recurrences (d : Nat) :
    vertex_count d = 10 * 4 ^ d + 2 ∧
    triangle_count d = 20 * 4 ^ d ∧
    vertex_count (d + 1) = vertex_count d + 30 * 4 ^ d ∧
    triangle_count (d + 1) = 4 * triangle_count d := by
  have h : ∀ n : Nat, (1 : Nat) <<< (n * 2) = 4 ^ n := by
    intro n
    rw [Nat.shiftLeft_eq, one_mul, Nat.mul_comm n 2, pow_mul]
    norm_num
  refine ⟨?_, ?_, ?_, ?_⟩ <;>
    simp only [vertex_count, triangle_count, h, pow_succ] <;> ring

/-- C8: refuted by evaluation — the depth-0 mesh has 12 vertices and 20
triangles as claimed, but the neighbor set of vertex 1 has only 4
elements: the `neighbor_indices` row for vertex 1 is `[5, 9, 7, 8, 9]`,
listing 9 twice (and omitting 0, which the triangle list makes a
neighbor of vertex 1), so collecting it into a set gives
`{5, 9, 7, 8}`. -/
theorem regular_counts_and_vertex_one_neighbors :
    StaticIcosphere.regular.vertices.length = 12 ∧
    StaticIcosphere.regular.triangles.length = 20 ∧
    (lookupA 1 StaticIcosphere.regular.neighbors).map List.length = some 4 := by
  exact ⟨rfl, rfl, rfl⟩

/-- C9: refuted by evaluation — on a step-1 manager whose chunks 0 and 1
are both fully generated, `flattened_chunk_indices(level, 0)` returns the
`3 * chunk_size() = 12` indices as claimed, but
`flattened_chunk_indices(level, 1)` panics: the triangle indices of
chunk 1 are 4..8 and the source copies each triple to the absolute
offset `triangle_index * 3` (12..24) of a buffer of length 12. -/
theorem flattened_chunk_indices_out_of_range :
    (chunkLevels.flattened_chunk_indices 0 0).map List.length = some 12 ∧
    3 * chunkLevels.chunk_size = 12 ∧
    chunkLevels.subchunk_indices 1 = [4, 5, 6, 7] ∧
    ((chunkLevels.subchunk_indices 1).all
        fun t => (lookupA t chunkMesh.triangles).isSome) = true ∧
    chunkLevels.flattened_chunk_indices 0 1 = none := by
  exact ⟨rfl, rfl, rfl, rfl, rfl⟩

/-- C10: confirmed — for every manager and every chunk index,
`update_chunk(0, _)` panics: level 0 maps to internal index 0, the split
leaves no previous mesh, and the source unwraps `None`. -/
theorem updateChunk_level_zero_panics (m : IcosphereLevels) (chunk_index : Nat) :
    m.updateChunk 0 chunk_index = none := by
  simp [IcosphereLevels.updateChunk, IcosphereLevels.index_at_level]

theorem copyCorner_ne_depthMismatch (previous s : SparseIcosphere) (pv : Nat) :
    copyCorner previous s pv ≠ .error .depthMismatch := by
  unfold copyCorner
  split
  · simp
  · split <;> simp

theorem splitEdge_ne_depthMismatch (previous s : SparseIcosphere) (i j : Nat) :
    splitEdge previous s i j ≠ .error .depthMismatch := by
  unfold splitEdge
  by_cases hij : i > j
  · rw [if_pos hij]
    rcases h : lookupA (j, i) s.midpoints with _ | m
    · simp only [h]
      rcases hi : previous.vertices.get? i with _ | pi <;>
        rcases hj : previous.vertices.get? j with _ | pj <;> simp [hi, hj]
    · simp [h]
  · rw [if_neg hij]
    rcases h : lookupA (i, j) s.midpoints with _ | m
    · simp only [h]
      rcases hi : previous.vertices.get? i with _ | pi <;>
        rcases hj : previous.vertices.get? j with _ | pj <;> simp [hi, hj]
    · simp [h]

theorem subdivideChunk_ne_dm_of_adjacent (s previous : SparseIcosphere) (p : Nat)
    (h : previous.binning_depth + 1 = s.binning_depth) :
    s.subdivideChunk previous p ≠ .error .depthMismatch := by
  unfold SparseIcosphere.subdivideChunk
  rw [if_neg (by omega)]
  split
  · simp
  split
  · simp
  rcases h1 : lookupA p previous.triangles with _ | ⟨pa, pb, pc⟩ <;> simp only [h1]
  · simp
  rcases h2 : copyCorner previous s pa with e2 | ⟨s1, a⟩ <;> simp only [h2]
  · intro hc
    injection hc with hce
    exact copyCorner_ne_depthMismatch previous s pa (by rw [h2, hce])
  rcases h3 : copyCorner previous s1 pb with e3 | ⟨s2, b⟩ <;> simp only [h3]
  · intro hc
    injection hc with hce
    exact copyCorner_ne_depthMismatch previous s1 pb (by rw [h3, hce])
  rcases h4 : copyCorner previous s2 pc with e4 | ⟨s3, c⟩ <;> simp only [h4]
  · intro hc
    injection hc with hce
    exact copyCorner_ne_depthMismatch previous s2 pc (by rw [h4, hce])
  rcases h5 : splitEdge previous s3 a b with e5 | ⟨s4, d⟩ <;> simp only [h5]
  · intro hc
    injection hc with hce
    exact splitEdge_ne_depthMismatch previous s3 a b (by rw [h5, hce])
  rcases h6 : splitEdge previous s4 b c with e6 | ⟨s5, e'⟩ <;> simp only [h6]
  · intro hc
    injection hc with hce
    exact splitEdge_ne_depthMismatch previous s4 b c (by rw [h6, hce])
  rcases h7 : splitEdge previous s5 c a with e7 | ⟨s6, f⟩ <;> simp only [h7]
  · intro hc
    injection hc with hce
    exact splitEdge_ne_depthMismatch previous s5 c a (by rw [h7, hce])
  simp

/-- C5: confirmed — `subdivide_chunk` hits its depth-mismatch `panic!`
(a fatal logic error with no recoverable result) exactly when
`previous.binning_depth + 1 ≠ self.binning_depth`; with adjacent depths
the call never fails on that ground (its other panics are the distinct
`missingTriangle` and `indexOutOfBounds` outcomes). -/
theorem subdivideChunk_depth_panic_iff (s previous : SparseIcosphere) (parent_index : Nat) :
    s.subdivideChunk previous parent_index = .error .depthMismatch ↔
      previous.binning_depth + 1 ≠ s.binning_depth := by
  by_cases h : previous.binning_depth + 1 = s.binning_depth
  · exact iff_of_false (subdivideChunk_ne_dm_of_adjacent s previous parent_index h)
      (by omega)
  · refine iff_of_true ?_ h
    unfold SparseIcosphere.subdivideChunk
    rw [if_pos h]

theorem lookupA_insertA {α β : Type} [DecidableEq α] (k k' : α) (v : β) (l : List (α × β)) :
    lookupA k' (insertA k v l) = if k = k' then some v else lookupA k' l := by
  induction l with
  | nil => simp [insertA, lookupA]
  | cons hd tl ih =>
    obtain ⟨k'', v''⟩ := hd
    simp only [insertA]
    by_cases h1 : k'' = k
    · subst h1
      by_cases h2 : k'' = k' <;> simp [lookupA, h2]
    · rw [if_neg h1]
      by_cases h2 : k'' = k'
      · subst h2
        rw [if_neg (fun hh => h1 hh.symm)]
        simp [lookupA]
      · simp [lookupA, h2, ih]

theorem copyCorner_depth (previous s : SparseIcosphere) (pv : Nat)
    (s' : SparseIcosphere) (idx : Nat) (h : copyCorner previous s pv = .ok (s', idx)) :
    s'.binning_depth = s.binning_depth := by
  unfold copyCorner at h
  rcases hv : previous.vertices.get? pv with _ | vertex
  · simp only [hv] at h
    simp at h
  · simp only [hv] at h
    rcases hc : lookupA pv s.previous_vertices with _ | vi <;> simp only [hc] at h <;>
      simp only [Except.ok.injEq, Prod.mk.injEq] at h <;>
      obtain ⟨h1, h2⟩ := h <;> subst h1 <;> rfl

theorem splitEdge_depth (previous s : SparseIcosphere) (i j : Nat)
    (s' : SparseIcosphere) (idx : Nat) (h : splitEdge previous s i j = .ok (s', idx)) :
    s'.binning_depth = s.binning_depth := by
  unfold splitEdge at h
  rcases hL : lookupA (if i > j then (j, i) else (i, j)) s.midpoints with _ | m
  · simp only [hL] at h
    rcases hi : previous.vertices.get? i with _ | pi
    · simp only [hi] at h
      simp at h
    · rcases hj : previous.vertices.get? j with _ | pj
      · simp only [hi, hj] at h
        simp at h
      · simp only [hi, hj] at h
        simp only [Except.ok.injEq, Prod.mk.injEq] at h
        obtain ⟨h1, h2⟩ := h
        subst h1
        rfl
  · simp only [hL] at h
    simp only [Except.ok.injEq, Prod.mk.injEq] at h
    obtain ⟨h1, h2⟩ := h
    subst h1
    rfl

theorem subdivideChunk_true_inv (s previous : SparseIcosphere) (p : Nat)
    (s' : SparseIcosphere) (h : s.subdivideChunk previous p = .ok (s', true)) :
    s'.binning_depth = s.binning_depth ∧
    previous.binning_depth + 1 = s.binning_depth ∧
    (lookupA (p * 4) s'.triangles).isSome = true := by
  unfold SparseIcosphere.subdivideChunk at h
  by_cases hd : previous.binning_depth + 1 = s.binning_depth
  case neg =>
    rw [if_pos (by omega)] at h
    simp at h
  case pos =>
    rw [if_neg (by omega)] at h
    by_cases hfull : s.triangles.length = triangle_count s.binning_depth
    · rw [if_pos hfull] at h
      simp at h
    rw [if_neg hfull] at h
    by_cases hpresent : (lookupA (p * 4) s.triangles).isSome = true
    · rw [if_pos hpresent] at h
      simp at h
    rw [if_neg hpresent] at h
    rcases hL : lookupA p previous.triangles with _ | ⟨pa, pb, pc⟩
    · simp only [hL] at h
      simp at h
    simp only [hL] at h
    rcases h2 : copyCorner previous s pa with e2 | ⟨s1, a⟩ <;> simp only [h2] at h
    · simp at h
    rcases h3 : copyCorner previous s1 pb with e3 | ⟨s2, b⟩ <;> simp only [h3] at h
    · simp at h
    rcases h4 : copyCorner previous s2 pc with e4 | ⟨s3, c⟩ <;> simp only [h4] at h
    · simp at h
    rcases h5 : splitEdge previous s3 a b with e5 | ⟨s4, d⟩ <;> simp only [h5] at h
    · simp at h
    rcases h6 : splitEdge previous s4 b c with e6 | ⟨s5, e'⟩ <;> simp only [h6] at h
    · simp at h
    rcases h7 : splitEdge previous s5 c a with e7 | ⟨s6, f⟩ <;> simp only [h7] at h
    · simp at h
    simp only [Except.ok.injEq, Prod.mk.injEq] at h
    obtain ⟨h1, _⟩ := h
    subst h1
    have d1 := copyCorner_depth previous s pa s1 a h2
    have d2 := copyCorner_depth previous s1 pb s2 b h3
    have d3 := copyCorner_depth previous s2 pc s3 c h4
    have d4 := splitEdge_depth previous s3 a b s4 d h5
    have d5 := splitEdge_depth previous s4 b c s5 e' h6
    have d6 := splitEdge_depth previous s5 c a s6 f h7
    refine ⟨by simp only []; omega, hd, ?_⟩
    simp [lookupA_insertA]
theorem take_set_eq {α : Type} (l : List α) (i : Nat) (a : α) :
    (l.set i a).take i = l.take i := by
  induction l generalizing i with
  | nil => simp
  | cons hd tl ih =>
    cases i with
    | zero => simp
    | succ n => simp [List.set, ih]

theorem subdivideChunk_noop (s previous : SparseIcosphere) (p : Nat)
    (hdep : previous.binning_depth + 1 = s.binning_depth)
    (hk : (lookupA (p * 4) s.triangles).isSome = true) :
    s.subdivideChunk previous p = .ok (s, false) := by
  unfold SparseIcosphere.subdivideChunk
  rw [if_neg (by omega)]
  by_cases hfull : s.triangles.length = triangle_count s.binning_depth
  · rw [if_pos hfull]
  · rw [if_neg hfull, if_pos hk]

theorem updateChunk_second_call (m : IcosphereLevels) (level chunk_index : Nat)
    (m' : IcosphereLevels) (h : m.updateChunk level chunk_index = some (m', true)) :
    m'.updateChunk level chunk_index = some (m', false) := by
  unfold IcosphereLevels.updateChunk IcosphereLevels.index_at_level at h ⊢
  rcases hprev : (m.levels.take (level * m.binning_depth_step)).getLast? with _ | previous
  · simp only [hprev] at h
    simp at h
  simp only [hprev] at h
  rcases hcur : (m.levels.drop (level * m.binning_depth_step)).head? with _ | current
  · simp only [hcur] at h
    simp at h
  simp only [hcur] at h
  rcases hsc : current.subdivideChunk previous chunk_index with e | ⟨c, gen⟩
  · simp only [hsc] at h
    simp at h
  simp only [hsc] at h
  simp only [Option.some.injEq, Prod.mk.injEq] at h
  obtain ⟨h1, hgen⟩ := h
  subst hgen
  obtain ⟨hcd, hpd, hkey⟩ := subdivideChunk_true_inv current previous chunk_index c hsc
  have hlt : level * m.binning_depth_step < m.levels.length := by
    have := List.head?_drop m.levels (level * m.binning_depth_step)
    rw [hcur] at this
    rcases List.getElem?_eq_some_iff.mp this.symm with ⟨hl, _⟩
    exact hl
  subst h1
  simp only []
  rw [take_set_eq, hprev, List.head?_drop, List.getElem?_set_self hlt]
  simp only [subdivideChunk_noop c previous chunk_index (by omega) hkey, List.set_set]


/-- C4: confirmed — whenever `update_chunk(level, chunk_index)` performs
work and returns `true` with updated manager state, the immediately
following identical call returns `false` and leaves the manager — hence
the mesh at that level and its allocated triangle and vertex counts —
exactly unchanged: the first call inserted the child triangle at index
`chunk_index * 4`, whose presence makes the second call an early-return
no-op.  The hypothesis that the first call succeeds with `true` is the
scenario of the claim (chunk not yet generated, parent present); the
witness instantiates it concretely. -/
theorem updateChunk_true_then_false (m : IcosphereLevels) (level chunk_index : Nat)
    (m' : IcosphereLevels) (h : m.updateChunk level chunk_index = some (m', true)) :
    m'.updateChunk level chunk_index = some (m', false) ∧
    (m'.updateChunk level chunk_index).map
        (fun r => (r.1.get? level).map fun s => (s.triangles.length, s.vertices.length)) =
      some ((m'.get? level).map fun s => (s.triangles.length, s.vertices.length)) := by
  have h2 := updateChunk_second_call m level chunk_index m' h
  exact ⟨h2, by rw [h2]; rfl⟩

/-- Witness for C4: on the concrete two-level manager `idemLevels`, the
first `update_chunk(1, 0)` call returns `true` and the second returns
`false` with the manager unchanged. -/
theorem updateChunk_true_then_false_witness :
    idemLevels.updateChunk 1 0 = some (idemLevelsAfter, true) ∧
    idemLevelsAfter.updateChunk 1 0 = some (idemLevelsAfter, false) := by
  have h : idemLevels.updateChunk 1 0 = some (idemLevelsAfter, true) := by rfl
  exact ⟨h, (updateChunk_true_then_false idemLevels 1 0 idemLevelsAfter h).1⟩

end Icosphere
